import Mathlib

/-!
# read2slack: the delivery client, the chunker and the batching loop

A shallow embedding of `read2slack.go`.

* Go strings are modelled by `String` (valid UTF-8 text): `len(s)` is
  `String.utf8ByteSize`, `[]rune(s)` is `String.data`, `string(r)` is
  `String.singleton`.
* `time.Duration` is an `Int` number of nanoseconds; a product of durations
  computed at run time wraps to 64 bits as it does in Go.
* Side effects (HTTP attempts, sleeps, process exit, channel sends) are
  recorded in order in a trace returned by each function.
* The remote endpoint is an input: the list of results that successive
  `http.PostForm` calls return.
-/

namespace Read2Slack

/-! ## Constants -/

/-- Source: `SlackCharLimit = 4000`. -/
def SlackCharLimit : Nat := 4000

/-- Source: `SlackMsgPerSecond = 2`. -/
def SlackMsgPerSecond : Int := 2

/-- Go: `time.Second`, in nanoseconds. -/
def Second : Int := 1000000000

/-- Two's-complement wrap of an integer to the range of `int64`. -/
def wrapInt64 (x : Int) : Int := (x + 2 ^ 63) % 2 ^ 64 - 2 ^ 63

/-- Source: `slackRateLimit := time.Duration(SlackMsgPerSecond) * time.Second`. -/
def slackRateLimit : Int := SlackMsgPerSecond * Second

/-- Go: `http.StatusOK`. -/
def StatusOK : Int := 200
/-- Go: `http.StatusTooManyRequests`. -/
def StatusTooManyRequests : Int := 429
/-- Go: `http.StatusInternalServerError`. -/
def StatusInternalServerError : Int := 500
/-- Go: `http.StatusExpectationFailed`. -/
def StatusExpectationFailed : Int := 417

/-! ## Data model -/

/-- Source: `type SlackMsg struct`. -/
structure SlackMsg where
  Channel : String
  Username : String
  Text : String
  Parse : String
  IconEmoji : String
deriving DecidableEq

/-- Source: `type channel struct`. -/
structure channel where
  HookUrl : String
  Channel : String
deriving DecidableEq

/-- The part of `*http.Response` the program reads: the status code and the
header fields. -/
structure Response where
  StatusCode : Int
  Header : List (String × String)
deriving DecidableEq

/-- Go: `resp.Header.Get(key)`, the first value stored under `key`, or the
empty string when there is none. -/
def Response.headerGet (resp : Response) (key : String) : String :=
  match resp.Header.find? (fun kv => kv.1 == key) with
  | some kv => kv.2
  | none => ""

/-- The pair `(resp, err)` returned by `http.PostForm`: `resp = none` is the
nil pointer, `err = none` is the nil error. -/
structure PostFormResult where
  resp : Option Response
  err : Option String
deriving DecidableEq

/-- The serialised form of a message. `json.Marshal` is the standard
library's; the JSON text is kept abstract and stands for the message it
serialises. -/
structure Payload where
  json_of : SlackMsg
deriving DecidableEq

/-- Observable effects of the delivery client, in program order. -/
inductive Effect where
  /-- One call `http.PostForm(url, payload)` together with what it returned. -/
  | postForm (url : String) (payload : Payload) (res : PostFormResult)
  /-- A call `fmt.Println(s)`. -/
  | println (s : String)
  /-- A call `time.Sleep(d)`, `d` in nanoseconds. -/
  | sleep (d : Int)
  /-- A call `log.Fatalf`: the process exits. -/
  | fatalf
deriving DecidableEq

/-- Go: `time.Sleep(d)` pauses for at least `d`, and returns immediately when
`d` is zero or negative. The nanoseconds an effect is guaranteed to wait. -/
def Effect.waited : Effect → Int
  | .sleep d => if d ≤ 0 then 0 else d
  | _ => 0

/-- A delivery attempt that the endpoint accepted: the transport reported no
error and the status is `http.StatusOK`. -/
def Effect.delivered : Effect → Bool
  | .postForm _ _ ⟨some resp, none⟩ => resp.StatusCode == StatusOK
  | _ => false

/-- Number of accepted deliveries in a trace. -/
def successes (tr : List Effect) : Nat := (tr.filter Effect.delivered).length

/-- Number of HTTP attempts in a trace. -/
def attempts (tr : List Effect) : Nat :=
  (tr.filter (fun e => match e with | .postForm _ _ _ => true | _ => false)).length

/-- Total nanoseconds a trace is guaranteed to have waited. -/
def totalWaited (tr : List Effect) : Int := (tr.map Effect.waited).sum

/-! ## strconv.Atoi -/

/-- Value of an ASCII decimal digit. -/
def digitVal (c : Char) : Option Nat :=
  if 48 ≤ c.toNat ∧ c.toNat ≤ 57 then some (c.toNat - 48) else none

/-- Decimal value of a run of digits, `none` when a character is not a digit. -/
def parseDigits : List Char → Nat → Option Nat
  | [], acc => some acc
  | c :: cs, acc =>
    match digitVal c with
    | some d => parseDigits cs (acc * 10 + d)
    | none => none

/-- Go: `strconv.Atoi` on a 64-bit platform: an optional sign followed by at
least one decimal digit, the value within the range of `int`; anything else is
an error (`none`). -/
def Atoi (s : String) : Option Int :=
  match s.data with
  | [] => none
  | c :: cs =>
    let neg := c == (Char.ofNat 45)
    let ds := if c == (Char.ofNat 45) || c == (Char.ofNat 43) then cs else c :: cs
    match ds with
    | [] => none
    | _ =>
      match parseDigits ds 0 with
      | none => none
      | some n =>
        let v : Int := if neg then -(n : Int) else (n : Int)
        if -(2 : Int) ^ 63 ≤ v ∧ v < (2 : Int) ^ 63 then some v else none

/-! ## Delivery client -/

/-- Source: `func (m SlackMsg) Encode() (string, error)`. `json.Marshal` does
not fail on a struct whose fields are all strings. -/
def SlackMsg.Encode (m : SlackMsg) : Except String Payload := .ok ⟨m⟩

/-- Source: `func rateLimitDelay(resp *http.Response) error`. Returns the
sleeps performed and the error (`none` is nil). -/
def rateLimitDelay (resp : Response) : List Effect × Option String :=
  let sleepStr := resp.headerGet "Retry-After"
  if sleepStr ≠ "" then
    match Atoi sleepStr with
    | none => ([], some "Failed to get the timeout value")
    | some sec => ([Effect.sleep (wrapInt64 (sec * Second))], none)
  else
    ([Effect.sleep (60 * Second)], none)

/-- What a call of `Post` did: its effects, and the returned pair
`(error, status)`, or `none` when it dereferenced a nil response and
panicked. -/
structure PostRun where
  trace : List Effect
  result : Option (Option String × Int)
deriving DecidableEq

/-- Source: `func (m SlackMsg) Post(WebhookURL string) (error, int)`, given
what `http.PostForm` returns. -/
def SlackMsg.Post (m : SlackMsg) (WebhookURL : String) (res : PostFormResult) : PostRun :=
  match m.Encode with
  | .error err => ⟨[], some (some err, StatusExpectationFailed)⟩
  | .ok encoded =>
    let call := Effect.postForm WebhookURL encoded res
    match res.err with
    | some err =>
      -- `resp.StatusCode` is read here
      match res.resp with
      | none => ⟨[call], none⟩
      | some resp =>
        if resp.StatusCode = StatusTooManyRequests then
          let (sl, err2) := rateLimitDelay resp
          match err2 with
          | some e => ⟨[call, Effect.println "in out Post"] ++ sl, some (some e, StatusTooManyRequests)⟩
          | none => ⟨[call, Effect.println "in out Post"] ++ sl, some (none, resp.StatusCode)⟩
        else
          ⟨[call], some (some err, resp.StatusCode)⟩
    | none =>
      match res.resp with
      | none => ⟨[call], none⟩
      | some resp =>
        if resp.StatusCode = StatusTooManyRequests then
          let (sl, err2) := rateLimitDelay resp
          match err2 with
          | some e => ⟨[call] ++ sl, some (some e, StatusTooManyRequests)⟩
          | none => ⟨[call] ++ sl, some (none, StatusTooManyRequests)⟩
        else if resp.StatusCode ≠ StatusOK then
          ⟨[call], some (some "Not OK", resp.StatusCode)⟩
        else
          ⟨[call], some (none, resp.StatusCode)⟩

/-- How a call of `PostToSlack` ended. -/
inductive Outcome where
  /-- The loop reached `break` and the function returned. -/
  | returned
  /-- `log.Fatalf` ended the process. -/
  | fatal
  /-- A nil response was dereferenced. -/
  | panicked
  /-- The endpoint script is used up: the next HTTP call has not answered. -/
  | pending
deriving DecidableEq

/-- What a call of `PostToSlack` did. -/
structure SlackRun where
  trace : List Effect
  outcome : Outcome
deriving DecidableEq

/-- Prefix a run with effects that happened before it. -/
def SlackRun.after (pre : List Effect) (r : SlackRun) : SlackRun :=
  ⟨pre ++ r.trace, r.outcome⟩

/-- Source: `func (m SlackMsg) PostToSlack(hookUrl string)`, against the list
of results of the successive HTTP calls. -/
def SlackMsg.PostToSlack (m : SlackMsg) (hookUrl : String) : List PostFormResult → SlackRun
  | [] => ⟨[], Outcome.pending⟩
  | res :: rest =>
    match m.Post hookUrl res with
    | ⟨tr, none⟩ => ⟨tr, Outcome.panicked⟩
    | ⟨tr, some (err, status)⟩ =>
      if err.isSome then
        if status = StatusTooManyRequests then
          SlackRun.after tr (m.PostToSlack hookUrl rest)
        else if status = StatusInternalServerError then
          SlackRun.after (tr ++ [Effect.sleep (60 * Second)]) (m.PostToSlack hookUrl rest)
        else
          ⟨tr ++ [Effect.fatalf], Outcome.fatal⟩
      else
        ⟨tr, Outcome.returned⟩

/-! ## Chunker and batching loop -/

/-- Observable actions of the chunker and of the batching loop, in program
order. -/
inductive Action where
  /-- A call `time.Sleep(d)`, `d` in nanoseconds. -/
  | sleep (d : Int)
  /-- A call `m.PostToSlack(hookUrl)`. -/
  | postToSlack (hookUrl : String) (m : SlackMsg)
  /-- A send `done <- true`. -/
  | done
deriving DecidableEq

/-- The body of a `PostToSlack` call; nothing for the other actions. -/
def Action.body? : Action → Option String
  | .postToSlack _ m => some m.Text
  | _ => none

/-- The bodies handed to `PostToSlack`, in call order. -/
def bodies (as : List Action) : List String := as.filterMap Action.body?

/-- Concatenation of a list of strings, in order. -/
def concat (ss : List String) : String := ss.foldr (fun s acc => s ++ acc) ""

/-- The loop `for i, r := range stringSlice` of `PostToSlackBigMsg`, from
index `i` with the accumulated `msg` and the actions `acts` performed so far:
the final `msg` and all the actions. -/
def bigMsgLoop (limit : Nat) (m : SlackMsg) (hookUrl : String) :
    Nat → String → List Action → List Char → String × List Action
  | _, msg, acts, [] => (msg, acts)
  | i, msg, acts, r :: rs =>
    let msg := msg ++ String.singleton r
    if i > 0 ∧ (i + 1) % limit = 0 then
      bigMsgLoop limit m hookUrl (i + 1) msg
        (acts ++ [Action.sleep slackRateLimit, Action.postToSlack hookUrl { m with Text := msg }])
        rs
    else
      bigMsgLoop limit m hookUrl (i + 1) msg acts rs

/-- Source: `func (m SlackMsg) PostToSlackBigMsg(hookUrl, text string)`, with
the size limit `SlackCharLimit` as the parameter `limit`. -/
def SlackMsg.PostToSlackBigMsg (limit : Nat) (m : SlackMsg) (hookUrl text : String) :
    List Action :=
  let stringSlice := text.data
  let (msg, inLoop) := bigMsgLoop limit m hookUrl 0 "" [] stringSlice
  if msg.utf8ByteSize > 0 then
    inLoop ++ [Action.sleep slackRateLimit, Action.postToSlack hookUrl { m with Text := msg }]
  else inLoop

/-- The variables of `poster` that live across iterations of its loop
(`startTime` is represented by the elapsed time each iteration observes). -/
structure PosterState where
  buffer : String
  msgSize : Nat
  msg : SlackMsg
deriving DecidableEq

/-- Source: the state of `poster` on entry to its loop. -/
def posterInit (ch : channel) (name icon : String) : PosterState :=
  { buffer := "", msgSize := 0,
    msg := { Channel := ch.Channel, Username := name, Parse := "full", Text := "",
             IconEmoji := icon } }

/-- What one iteration of the `select` in `poster` observes. `since` is the
value of `time.Since(startTime)` the iteration reads. -/
inductive Select where
  /-- `case text, ok := <-in` with `ok = true`. -/
  | line (text : String) (since : Int)
  /-- `case text, ok := <-in` on the closed channel: `ok = false`, `text = ""`. -/
  | closed (since : Int)
  /-- The `default` case. -/
  | idle (since : Int)
deriving DecidableEq

/-- Source: `poster`, the statements from `duration := time.Since(startTime)`
to `msgSize += n` of the receive case. -/
def posterRecv (limit : Nat) (hookUrl : String) (st : PosterState) (text : String)
    (duration : Int) : PosterState × List Action :=
  let textLen := text.utf8ByteSize
  let (st, acts) : PosterState × List Action :=
    if textLen > limit then
      let wait := [Action.sleep (slackRateLimit - duration)]
      let (st, flushed) : PosterState × List Action :=
        if st.buffer.utf8ByteSize > 0 then
          let msg := { st.msg with Text := st.buffer }
          ({ st with msg := msg }, [Action.postToSlack hookUrl msg])
        else (st, [])
      let msg := { st.msg with Text := "" }
      let big := msg.PostToSlackBigMsg limit hookUrl text
      ({ buffer := "", msgSize := 0, msg := msg }, wait ++ flushed ++ big)
    else if st.msgSize + textLen > limit then
      let wait := [Action.sleep (slackRateLimit - duration)]
      if st.buffer.utf8ByteSize > 0 then
        let msg := { st.msg with Text := st.buffer }
        ({ buffer := "", msgSize := 0, msg := msg }, wait ++ [Action.postToSlack hookUrl msg])
      else (st, wait)
    else (st, [])
  -- add this text to msg
  let n := text.utf8ByteSize
  let buffer := st.buffer ++ text
  let msgSize := if n = textLen then st.msgSize + n else st.msgSize
  ({ st with buffer := buffer, msgSize := msgSize }, acts)

/-- Source: one iteration of the `for { select { ... } }` loop of `poster`. -/
def posterStep (limit : Nat) (hookUrl : String) (st : PosterState) :
    Select → PosterState × List Action
  | .line text since => posterRecv limit hookUrl st text since
  | .closed since =>
    let (st, flushed) : PosterState × List Action :=
      if st.buffer.utf8ByteSize > 0 then
        let msg := { st.msg with Text := st.buffer }
        ({ st with msg := msg }, [Action.postToSlack hookUrl msg])
      else (st, [])
    let (st, later) := posterRecv limit hookUrl st "" since
    (st, flushed ++ [Action.done] ++ later)
  | .idle duration =>
    if duration ≥ slackRateLimit then
      if st.buffer.utf8ByteSize > 0 then
        let msg := { st.msg with Text := st.buffer }
        ({ buffer := "", msgSize := 0, msg := msg }, [Action.postToSlack hookUrl msg])
      else (st, [])
    else (st, [])

/-- Source: the loop of `poster` run over a finite sequence of iterations. -/
def posterRun (limit : Nat) (hookUrl : String) :
    PosterState → List Select → PosterState × List Action
  | st, [] => (st, [])
  | st, ev :: evs =>
    let (st1, acts) := posterStep limit hookUrl st ev
    let (st2, later) := posterRun limit hookUrl st1 evs
    (st2, acts ++ later)

/-- The actions up to and including the first completion signal
`done <- true`; `main` returns, and the process ends, when it receives it. -/
def untilDone : List Action → List Action
  | [] => []
  | Action.done :: _ => [Action.done]
  | a :: as => a :: untilDone as

/-! ## Inputs and measures used by the statements -/

/-- An iteration the batching loop can absorb without splitting: a received
line whose length `len(text)` is at most `limit`, or an idle check. The
closing of the input channel is not one. -/
def Select.small (limit : Nat) : Select → Prop
  | .line text _ => text.utf8ByteSize ≤ limit
  | .idle _ => True
  | .closed _ => False

instance Select.decidableSmall (limit : Nat) : DecidablePred (Select.small limit) := fun e =>
  match e with
  | .line text _ => inferInstanceAs (Decidable (text.utf8ByteSize ≤ limit))
  | .idle _ => isTrue trivial
  | .closed _ => isFalse (fun h => h)

/-- The line an iteration receives, empty for the other iterations. -/
def Select.text : Select → String
  | .line text _ => text
  | _ => ""

/-- The input lines of a sequence of iterations, concatenated in arrival
order. -/
def inputText (es : List Select) : String := concat (es.map Select.text)

/-- The state invariant of the batching loop: `msgSize` is the length of the
buffer and is at most the limit. -/
def PosterState.bounded (limit : Nat) (st : PosterState) : Prop :=
  st.msgSize = st.buffer.utf8ByteSize ∧ st.msgSize ≤ limit

/-- The posts the loop of `PostToSlackBigMsg` makes over `k` full blocks of
`limit` characters of `rs`, starting with the accumulated `msg`. -/
def blockPosts (limit : Nat) (m : SlackMsg) (hookUrl : String) :
    Nat → String → List Char → List Action
  | 0, _, _ => []
  | k + 1, msg, rs =>
    [Action.sleep slackRateLimit,
     Action.postToSlack hookUrl { m with Text := msg ++ String.mk (rs.take limit) }]
      ++ blockPosts limit m hookUrl k (msg ++ String.mk (rs.take limit)) (rs.drop limit)

/-- A text of 9000 characters. -/
def text9000 : String := String.mk (List.replicate 9000 'a')

/-- A line of 4001 characters, one more than `SlackCharLimit`. -/
def line4001 : String := String.mk (List.replicate 4001 'a')

/-- A line of 100 characters `a`. -/
def a100 : String := String.mk (List.replicate 100 'a')

/-- A line of 100 characters `b`. -/
def b100 : String := String.mk (List.replicate 100 'b')

/-- An endpoint answer with the given status and header fields, the
transport reporting no error. -/
def answer (status : Int) (header : List (String × String)) : PostFormResult :=
  ⟨some ⟨status, header⟩, none⟩

/-! # Lemmas -/

/-! ## Strings -/

theorem utf8ByteSize_eq_zero_iff (s : String) : s.utf8ByteSize = 0 ↔ s = "" := by
  cases s with
  | mk cs =>
    simp only [String.utf8ByteSize_mk, String.utf8Len_eq_zero]
    constructor
    · intro h; subst h; rfl
    · intro h; exact congrArg String.data h

theorem utf8ByteSize_pos_iff (s : String) : s.utf8ByteSize > 0 ↔ s ≠ "" := by
  rw [gt_iff_lt, Nat.pos_iff_ne_zero, Ne, utf8ByteSize_eq_zero_iff]

theorem mk_append_mk (a b : List Char) : String.mk a ++ String.mk b = String.mk (a ++ b) := by
  apply String.ext
  simp [String.data_append]

theorem utf8ByteSize_append (s t : String) :
    (s ++ t).utf8ByteSize = s.utf8ByteSize + t.utf8ByteSize := by
  cases s; cases t
  rw [mk_append_mk]
  simp [String.utf8ByteSize_mk, String.utf8Len_append]

theorem append_singleton_mk (msg : String) (r : Char) (rs : List Char) :
    (msg ++ String.singleton r) ++ String.mk rs = msg ++ String.mk (r :: rs) := by
  apply String.ext
  simp [String.data_append, String.singleton]

theorem utf8ByteSize_replicate_a (n : Nat) :
    (String.mk (List.replicate n 'a')).utf8ByteSize = n := by
  induction n with
  | zero => rfl
  | succ k ih =>
    rw [List.replicate_succ, String.utf8ByteSize_mk, String.utf8Len_cons, ← String.utf8ByteSize_mk, ih]
    rfl

/-! ## Chunker -/

/-- A run of characters that does not reach the next multiple of `limit` is
accumulated without any post. -/
theorem bigMsgLoop_block (limit : Nat) (m : SlackMsg) (hookUrl : String) :
    ∀ (blk : List Char) (i : Nat) (msg : String) (acts : List Action) (tail : List Char),
      i % limit + blk.length < limit →
      bigMsgLoop limit m hookUrl i msg acts (blk ++ tail)
        = bigMsgLoop limit m hookUrl (i + blk.length) (msg ++ String.mk blk) acts tail := by
  intro blk
  induction blk with
  | nil =>
    intro i msg acts tail _
    have h : msg ++ String.mk [] = msg := String.append_empty msg
    simp [h]
  | cons r rs ih =>
    intro i msg acts tail hlt
    simp only [List.length_cons] at hlt
    have hmod : (i + 1) % limit = i % limit + 1 := by
      rw [Nat.add_mod, Nat.mod_eq_of_lt (a := i % limit + 1 % limit)]
      · rw [Nat.mod_eq_of_lt (a := 1)]; omega
      · have : 1 % limit ≤ 1 := Nat.mod_le 1 limit
        omega
    have hne : ¬ (i > 0 ∧ (i + 1) % limit = 0) := by
      rw [hmod]; omega
    rw [List.cons_append, bigMsgLoop, if_neg hne, ih (i + 1) _ acts tail (by rw [hmod]; omega),
      append_singleton_mk]
    simp only [List.length_cons]
    congr 1
    omega

/-- From an index that is a multiple of `limit`, the loop posts once per full
block of `limit` characters, each time with everything accumulated so far. -/
theorem bigMsgLoop_blocks (limit : Nat) (hl : 2 ≤ limit) (m : SlackMsg) (hookUrl : String) :
    ∀ (k : Nat) (rs : List Char) (msg : String) (acts : List Action) (q : Nat),
      rs.length / limit = k →
      bigMsgLoop limit m hookUrl (q * limit) msg acts rs
        = (msg ++ String.mk rs, acts ++ blockPosts limit m hookUrl k msg rs) := by
  intro k
  induction k with
  | zero =>
    intro rs msg acts q hk
    have hlt : rs.length < limit := by
      rcases (Nat.div_eq_zero_iff (by omega : 0 < limit)).mp hk with h
      exact h
    have h := bigMsgLoop_block limit m hookUrl rs (q * limit) msg acts []
      (by rw [Nat.mul_mod_left]; omega)
    rw [List.append_nil] at h
    rw [h]
    simp [bigMsgLoop, blockPosts]
  | succ k ih =>
    intro rs msg acts q hk
    have hge : limit ≤ rs.length := by
      by_contra hcon
      have : rs.length / limit = 0 := Nat.div_eq_of_lt (by omega)
      omega
    have hidx : limit - 1 < rs.length := by omega
    have hdrop : rs.drop (limit - 1) = rs[limit - 1] :: rs.drop limit := by
      have := List.drop_eq_getElem_cons (l := rs) (n := limit - 1) hidx
      rw [this]
      congr 2
      omega
    have hsplit : rs = rs.take (limit - 1) ++ rs[limit - 1] :: rs.drop limit := by
      rw [← hdrop, List.take_append_drop]
    have htake : rs.take limit = rs.take (limit - 1) ++ [rs[limit - 1]] := by
      have h1 : limit = (limit - 1) + 1 := by omega
      conv_lhs => rw [h1]
      rw [List.take_succ]
      simp [List.getElem?_eq_getElem hidx]
    have hlen : (rs.take (limit - 1)).length = limit - 1 := by
      rw [List.length_take]; omega
    conv_lhs => rw [hsplit]
    rw [bigMsgLoop_block limit m hookUrl (rs.take (limit - 1)) (q * limit) msg acts _
      (by rw [Nat.mul_mod_left, hlen]; omega)]
    rw [hlen]
    have hpos : q * limit + (limit - 1) > 0 ∧ (q * limit + (limit - 1) + 1) % limit = 0 := by
      constructor
      · omega
      · have : q * limit + (limit - 1) + 1 = (q + 1) * limit := by
          rw [Nat.add_mul]; omega
        rw [this, Nat.mul_mod_left]
    rw [bigMsgLoop, if_pos hpos]
    have hidx2 : q * limit + (limit - 1) + 1 = (q + 1) * limit := by
      rw [Nat.add_mul]; omega
    have hmsg : msg ++ String.mk (rs.take (limit - 1)) ++ String.singleton rs[limit - 1]
        = msg ++ String.mk (rs.take limit) := by
      rw [htake, String.append_assoc]
      congr 1
    rw [hidx2, hmsg]
    have hk2 : (rs.drop limit).length / limit = k := by
      rw [List.length_drop]
      have := Nat.sub_mul_div rs.length limit 1 (by omega)
      simp only [Nat.mul_one] at this
      rw [this, hk]; rfl
    have hall : msg ++ String.mk (rs.take limit) ++ String.mk (rs.drop limit)
        = msg ++ String.mk rs := by
      rw [String.append_assoc, mk_append_mk (rs.take limit) (rs.drop limit),
        List.take_append_drop]
    rw [ih (rs.drop limit) _ _ (q + 1) hk2, hall]
    simp [blockPosts]

theorem bodies_append (a b : List Action) : bodies (a ++ b) = bodies a ++ bodies b := by
  simp [bodies, List.filterMap_append]

theorem bodies_blockPosts (limit : Nat) (m : SlackMsg) (hookUrl : String) :
    ∀ (k : Nat) (msg : String) (rs : List Char),
      bodies (blockPosts limit m hookUrl k msg rs)
        = (List.range k).map (fun j => msg ++ String.mk (rs.take ((j + 1) * limit))) := by
  intro k
  induction k with
  | zero => intro msg rs; rfl
  | succ k ih =>
    intro msg rs
    rw [blockPosts, bodies_append, ih, List.range_succ_eq_map]
    simp only [bodies, List.filterMap_cons, Action.body?, List.filterMap_nil, List.map_cons,
      List.map_map, List.singleton_append, Nat.zero_add, Nat.one_mul]
    congr 1
    apply List.map_congr_left
    intro j _
    simp only [Function.comp, Nat.succ_eq_add_one]
    have h : (j + 1 + 1) * limit = limit + (j + 1) * limit := by
      rw [Nat.add_mul (j + 1) 1 limit]; omega
    rw [String.append_assoc,
      mk_append_mk (rs.take limit) ((rs.drop limit).take ((j + 1) * limit)), h, List.take_add]

/-- Every delivery of `PostToSlackBigMsg` carries the whole text accumulated
so far: one prefix per full block of `limit` characters, then the whole text
once more. -/
theorem PostToSlackBigMsg_bodies (limit : Nat) (hl : 2 ≤ limit) (m : SlackMsg)
    (hookUrl text : String) :
    bodies (m.PostToSlackBigMsg limit hookUrl text)
      = (List.range (text.length / limit)).map
          (fun j => String.mk (text.data.take ((j + 1) * limit)))
        ++ (if text = "" then [] else [text]) := by
  by_cases he : text = ""
  · subst he
    have h0 : ("" : String).length / limit = 0 := Nat.zero_div limit
    rw [h0]
    rfl
  · have h := bigMsgLoop_blocks limit hl m hookUrl (text.data.length / limit) text.data "" [] 0 rfl
    rw [Nat.zero_mul] at h
    have hmk : "" ++ String.mk text.data = text := String.empty_append text
    have hp : text.utf8ByteSize > 0 := (utf8ByteSize_pos_iff text).mpr he
    have hb := bodies_blockPosts limit m hookUrl (text.data.length / limit) "" text.data
    simp only [SlackMsg.PostToSlackBigMsg, h, hmk, List.nil_append, if_pos hp, if_neg he,
      bodies_append, hb, String.empty_append]
    rfl

/-! ## Batching loop -/

/-- The receive case on a line longer than the limit: the line ends up in the
buffer after the buffer was reset. -/
theorem posterRecv_big (limit : Nat) (hookUrl : String) (st : PosterState) (text : String)
    (duration : Int) (hbig : text.utf8ByteSize > limit) :
    posterRecv limit hookUrl st text duration
      = ({ buffer := text, msgSize := text.utf8ByteSize, msg := { st.msg with Text := "" } },
         [Action.sleep (slackRateLimit - duration)]
           ++ (if st.buffer.utf8ByteSize > 0 then
                [Action.postToSlack hookUrl { st.msg with Text := st.buffer }] else [])
           ++ SlackMsg.PostToSlackBigMsg limit { st.msg with Text := "" } hookUrl text) := by
  unfold posterRecv
  by_cases hb : st.buffer.utf8ByteSize > 0
  · simp [hbig, hb]
  · simp [hbig, hb]

/-- The receive case on a line that fits alone but not with a non-empty
buffer. -/
theorem posterRecv_overflow (limit : Nat) (hookUrl : String) (st : PosterState) (text : String)
    (duration : Int) (hfit : text.utf8ByteSize ≤ limit)
    (hover : st.msgSize + text.utf8ByteSize > limit) (hbuf : st.buffer.utf8ByteSize > 0) :
    posterRecv limit hookUrl st text duration
      = ({ buffer := text, msgSize := text.utf8ByteSize, msg := { st.msg with Text := st.buffer } },
         [Action.sleep (slackRateLimit - duration),
          Action.postToSlack hookUrl { st.msg with Text := st.buffer }]) := by
  unfold posterRecv
  have h1 : ¬ text.utf8ByteSize > limit := by omega
  simp [h1, hover, hbuf]

theorem posterRecv_overflow_empty (limit : Nat) (hookUrl : String) (st : PosterState)
    (text : String) (duration : Int) (hfit : text.utf8ByteSize ≤ limit)
    (hover : st.msgSize + text.utf8ByteSize > limit) (hbuf : ¬ st.buffer.utf8ByteSize > 0) :
    posterRecv limit hookUrl st text duration
      = ({ st with buffer := st.buffer ++ text, msgSize := st.msgSize + text.utf8ByteSize },
         [Action.sleep (slackRateLimit - duration)]) := by
  unfold posterRecv
  have h1 : ¬ text.utf8ByteSize > limit := by omega
  simp [h1, hover, hbuf]

/-- The receive case on a line that fits with the buffer. -/
theorem posterRecv_fits (limit : Nat) (hookUrl : String) (st : PosterState) (text : String)
    (duration : Int) (hfit : st.msgSize + text.utf8ByteSize ≤ limit) :
    posterRecv limit hookUrl st text duration
      = ({ st with buffer := st.buffer ++ text, msgSize := st.msgSize + text.utf8ByteSize },
         []) := by
  unfold posterRecv
  have h1 : ¬ text.utf8ByteSize > limit := by omega
  have h2 : ¬ st.msgSize + text.utf8ByteSize > limit := by omega
  simp [h1, h2]

theorem concat_nil : concat [] = "" := rfl

theorem concat_cons (s : String) (ss : List String) : concat (s :: ss) = s ++ concat ss := rfl

theorem concat_append (a b : List String) : concat (a ++ b) = concat a ++ concat b := by
  induction a with
  | nil => rw [List.nil_append, concat_nil, String.empty_append]
  | cons s ss ih => rw [List.cons_append, concat_cons, concat_cons, ih, String.append_assoc]

theorem untilDone_append (pre rest : List Action) (h : Action.done ∉ pre) :
    untilDone (pre ++ rest) = pre ++ untilDone rest := by
  induction pre with
  | nil => rfl
  | cons a as ih =>
    have ha : a ≠ Action.done := fun e => h (by rw [e]; exact List.mem_cons_self _ _)
    have hin : Action.done ∉ as := fun e => h (List.mem_cons_of_mem _ e)
    cases a with
    | done => exact absurd rfl ha
    | sleep d => simp [untilDone, ih hin]
    | postToSlack u m => simp [untilDone, ih hin]

theorem untilDone_append_done (pre rest : List Action) (h : Action.done ∉ pre) :
    untilDone (pre ++ Action.done :: rest) = pre ++ [Action.done] := by
  rw [untilDone_append pre _ h]
  rfl

theorem posterRun_cons (limit : Nat) (hookUrl : String) (st : PosterState) (e : Select)
    (es : List Select) :
    posterRun limit hookUrl st (e :: es)
      = ((posterRun limit hookUrl (posterStep limit hookUrl st e).1 es).1,
         (posterStep limit hookUrl st e).2
           ++ (posterRun limit hookUrl (posterStep limit hookUrl st e).1 es).2) := rfl

theorem posterRun_append (limit : Nat) (hookUrl : String) :
    ∀ (es es2 : List Select) (st : PosterState),
      posterRun limit hookUrl st (es ++ es2)
        = ((posterRun limit hookUrl (posterRun limit hookUrl st es).1 es2).1,
           (posterRun limit hookUrl st es).2
             ++ (posterRun limit hookUrl (posterRun limit hookUrl st es).1 es2).2) := by
  intro es
  induction es with
  | nil => intro es2 st; simp [posterRun]
  | cons e es ih =>
    intro es2 st
    rw [List.cons_append, posterRun_cons, posterRun_cons, ih, List.append_assoc]

/-- One iteration on a line that fits, or on an idle check: no completion
signal, and what was delivered followed by what is buffered is the old buffer
followed by the line. -/
theorem posterStep_small (limit : Nat) (hookUrl : String) (st : PosterState) (e : Select)
    (h : e.small limit) :
    Action.done ∉ (posterStep limit hookUrl st e).2 ∧
    concat (bodies (posterStep limit hookUrl st e).2) ++ (posterStep limit hookUrl st e).1.buffer
      = st.buffer ++ e.text := by
  cases e with
  | closed d => exact absurd h (by simp [Select.small])
  | line text d =>
    have hfit : text.utf8ByteSize ≤ limit := h
    simp only [posterStep, Select.text]
    by_cases hover : st.msgSize + text.utf8ByteSize > limit
    · by_cases hbuf : st.buffer.utf8ByteSize > 0
      · rw [posterRecv_overflow limit hookUrl st text d hfit hover hbuf]
        simp [bodies, Action.body?, concat]
      · rw [posterRecv_overflow_empty limit hookUrl st text d hfit hover hbuf]
        simp [bodies, Action.body?, concat]
    · rw [posterRecv_fits limit hookUrl st text d (by omega)]
      simp [bodies, concat]
  | idle d =>
    simp only [posterStep, Select.text]
    by_cases hd : d ≥ slackRateLimit
    · by_cases hbuf : st.buffer.utf8ByteSize > 0
      · simp [hd, hbuf, bodies, Action.body?, concat]
      · simp [hd, hbuf, bodies, concat]
    · simp [hd, bodies, concat]

theorem posterRun_small (limit : Nat) (hookUrl : String) :
    ∀ (es : List Select) (st : PosterState), (∀ e ∈ es, e.small limit) →
      Action.done ∉ (posterRun limit hookUrl st es).2 ∧
      concat (bodies (posterRun limit hookUrl st es).2) ++ (posterRun limit hookUrl st es).1.buffer
        = st.buffer ++ inputText es := by
  intro es
  induction es with
  | nil =>
    intro st _
    simp [posterRun, bodies, concat, inputText]
  | cons e es ih =>
    intro st hall
    have he := posterStep_small limit hookUrl st e (hall e (List.mem_cons_self _ _))
    have hrest := ih (posterStep limit hookUrl st e).1
      (fun x hx => hall x (List.mem_cons_of_mem _ hx))
    rw [posterRun_cons]
    constructor
    · intro hmem
      rcases List.mem_append.mp hmem with h1 | h2
      · exact he.1 h1
      · exact hrest.1 h2
    · rw [bodies_append, concat_append, String.append_assoc, hrest.2, ← String.append_assoc, he.2,
        String.append_assoc]
      rfl

theorem posterStep_closed_untilDone (limit : Nat) (hookUrl : String) (st : PosterState) (d : Int) :
    untilDone (posterStep limit hookUrl st (.closed d)).2
      = (if st.buffer.utf8ByteSize > 0 then
          [Action.postToSlack hookUrl { st.msg with Text := st.buffer }] else [])
        ++ [Action.done] := by
  simp only [posterStep]
  by_cases hbuf : st.buffer.utf8ByteSize > 0
  · simp only [hbuf, if_true, List.append_assoc, List.singleton_append]
    exact untilDone_append_done [_] _ (by simp)
  · simp only [hbuf, if_false, List.nil_append, List.singleton_append]
    rfl

theorem length_mk_replicate (n : Nat) (c : Char) : (String.mk (List.replicate n c)).length = n := by
  simp [String.length]

theorem posterStep_line (limit : Nat) (hookUrl : String) (st : PosterState) (text : String)
    (since : Int) :
    posterStep limit hookUrl st (.line text since) = posterRecv limit hookUrl st text since := rfl

theorem line4001_size : line4001.utf8ByteSize = 4001 := utf8ByteSize_replicate_a 4001

/-- What `PostToSlackBigMsg` hands to `PostToSlack` for the line of 4001
characters: its first 4000 characters, then the whole line. -/
theorem PostToSlackBigMsg_line4001 (m : SlackMsg) (hookUrl : String) :
    bodies (m.PostToSlackBigMsg SlackCharLimit hookUrl line4001)
      = [String.mk (List.replicate 4000 'a'), line4001] := by
  have hne : line4001 ≠ "" := by
    intro h
    have := congrArg String.length h
    rw [line4001, length_mk_replicate] at this
    exact absurd this (by decide)
  rw [PostToSlackBigMsg_bodies SlackCharLimit (by decide) m hookUrl line4001, if_neg hne]
  have hlen : line4001.length / SlackCharLimit = 1 := by
    rw [line4001, length_mk_replicate]; rfl
  have hr : List.range 1 = [0] := rfl
  have t1 : List.take ((0 + 1) * SlackCharLimit) line4001.data = List.replicate 4000 'a' := by
    show List.take 4000 (List.replicate 4001 'a') = List.replicate 4000 'a'
    rw [List.take_replicate]; rfl
  rw [hlen, hr]
  simp only [List.map_cons, List.map_nil, t1, List.cons_append, List.nil_append]

/-- When the endpoint answers the first attempt with status 200, a call of
`PostToSlack` is exactly one accepted delivery of its message. -/
theorem PostToSlack_ok (m : SlackMsg) (hookUrl : String) (header : List (String × String))
    (rest : List PostFormResult) :
    m.PostToSlack hookUrl (answer 200 header :: rest)
      = ⟨[Effect.postForm hookUrl ⟨m⟩ (answer 200 header)], Outcome.returned⟩ := rfl

/-- The accumulated count `msgSize` is the length of the buffer after every
iteration, whatever the iteration. -/
theorem posterStep_msgSize (limit : Nat) (hookUrl : String) (st : PosterState) (e : Select)
    (h : st.msgSize = st.buffer.utf8ByteSize) :
    (posterStep limit hookUrl st e).1.msgSize = (posterStep limit hookUrl st e).1.buffer.utf8ByteSize := by
  have key : ∀ (s : PosterState) (text : String) (d : Int), s.msgSize = s.buffer.utf8ByteSize →
      (posterRecv limit hookUrl s text d).1.msgSize
        = (posterRecv limit hookUrl s text d).1.buffer.utf8ByteSize := by
    intro s text d hs
    by_cases hbig : text.utf8ByteSize > limit
    · rw [posterRecv_big limit hookUrl s text d hbig]
    · by_cases hover : s.msgSize + text.utf8ByteSize > limit
      · by_cases hbuf : s.buffer.utf8ByteSize > 0
        · rw [posterRecv_overflow limit hookUrl s text d (by omega) hover hbuf]
        · rw [posterRecv_overflow_empty limit hookUrl s text d (by omega) hover hbuf]
          simp only [utf8ByteSize_append, hs]
      · rw [posterRecv_fits limit hookUrl s text d (by omega)]
        simp only [utf8ByteSize_append, hs]
  cases e with
  | line text d => exact key st text d h
  | closed d =>
    simp only [posterStep]
    by_cases hbuf : st.buffer.utf8ByteSize > 0
    · simp only [hbuf, if_true]
      exact key _ "" d h
    · simp only [hbuf, if_false]
      exact key _ "" d h
  | idle d =>
    simp only [posterStep]
    by_cases hd : d ≥ slackRateLimit
    · by_cases hbuf : st.buffer.utf8ByteSize > 0
      · simp only [hd, hbuf, if_true]; rfl
      · simp only [hd, hbuf, if_true, if_false]; exact h
    · simp only [hd, if_false]; exact h

/-- While every received line is at most `limit` long, an iteration keeps
`msgSize` equal to the buffer length and at most `limit`, and every body it
hands to `PostToSlack` is at most `limit` long. -/
theorem posterStep_small_bounded (limit : Nat) (hookUrl : String) (st : PosterState)
    (e : Select) (h : e.small limit) (hst : st.bounded limit) :
    (posterStep limit hookUrl st e).1.bounded limit
      ∧ ∀ b ∈ bodies (posterStep limit hookUrl st e).2, b.utf8ByteSize ≤ limit := by
  obtain ⟨hsz, hle⟩ := hst
  cases e with
  | closed d => exact absurd h (fun h => h)
  | line text d =>
    have hfit : text.utf8ByteSize ≤ limit := h
    rw [posterStep_line]
    by_cases hover : st.msgSize + text.utf8ByteSize > limit
    · by_cases hbuf : st.buffer.utf8ByteSize > 0
      · rw [posterRecv_overflow limit hookUrl st text d hfit hover hbuf]
        refine ⟨⟨rfl, hfit⟩, ?_⟩
        intro b hb
        simp only [bodies, List.filterMap_cons, Action.body?, List.filterMap_nil,
          List.mem_singleton] at hb
        rw [hb, ← hsz]
        exact hle
      · omega
    · rw [posterRecv_fits limit hookUrl st text d (by omega)]
      refine ⟨⟨?_, by simp only; omega⟩, ?_⟩
      · simp only [utf8ByteSize_append, hsz]
      · intro b hb
        simp [bodies] at hb
  | idle d =>
    simp only [posterStep]
    by_cases hd : d ≥ slackRateLimit
    · by_cases hbuf : st.buffer.utf8ByteSize > 0
      · simp only [hd, hbuf, if_true]
        refine ⟨⟨rfl, Nat.zero_le _⟩, ?_⟩
        intro b hb
        simp only [bodies, List.filterMap_cons, Action.body?, List.filterMap_nil,
          List.mem_singleton] at hb
        rw [hb, ← hsz]
        exact hle
      · simp only [hd, hbuf, if_true, if_false]
        exact ⟨⟨hsz, hle⟩, fun b hb => by simp [bodies] at hb⟩
    · simp only [hd, if_false]
      exact ⟨⟨hsz, hle⟩, fun b hb => by simp [bodies] at hb⟩

/-- The size invariant over a whole run whose received lines are all at most
`limit` long. -/
theorem posterRun_small_bounded (limit : Nat) (hookUrl : String) :
    ∀ (es : List Select) (st : PosterState), (∀ e ∈ es, e.small limit) → st.bounded limit →
      (posterRun limit hookUrl st es).1.bounded limit
        ∧ ∀ b ∈ bodies (posterRun limit hookUrl st es).2, b.utf8ByteSize ≤ limit := by
  intro es
  induction es with
  | nil =>
    intro st _ hst
    exact ⟨hst, fun b hb => by simp [posterRun, bodies] at hb⟩
  | cons e es ih =>
    intro st hall hst
    have he := posterStep_small_bounded limit hookUrl st e (hall e (List.mem_cons_self _ _)) hst
    have hrest := ih (posterStep limit hookUrl st e).1
      (fun x hx => hall x (List.mem_cons_of_mem _ hx)) he.1
    rw [posterRun_cons]
    refine ⟨hrest.1, ?_⟩
    intro b hb
    rw [bodies_append] at hb
    rcases List.mem_append.mp hb with h1 | h2
    · exact he.2 b h1
    · exact hrest.2 b h2

/-! ## The claims -/

/-- Claim C1, code defect. `PostToSlackBigMsg` never empties `msg` after a
post, so on the text of 9000 characters the three deliveries carry the first
4000 characters, the first 8000 characters and all 9000 characters: lengths
4000, 8000, 9000 and not 4000, 4000, 1000; two bodies exceed `SlackCharLimit`
and the bodies concatenated are 21000 characters long. -/
theorem PostToSlackBigMsg_9000_bodies_accumulate (m : SlackMsg) (hookUrl : String) :
    bodies (m.PostToSlackBigMsg SlackCharLimit hookUrl text9000)
        = [String.mk (List.replicate 4000 'a'), String.mk (List.replicate 8000 'a'), text9000]
      ∧ (bodies (m.PostToSlackBigMsg SlackCharLimit hookUrl text9000)).map String.length
        = [4000, 8000, 9000] := by
  have hne : text9000 ≠ "" := by
    intro h
    have := congrArg String.length h
    rw [text9000, length_mk_replicate] at this
    exact absurd this (by decide)
  have hb : bodies (m.PostToSlackBigMsg SlackCharLimit hookUrl text9000)
        = [String.mk (List.replicate 4000 'a'), String.mk (List.replicate 8000 'a'), text9000] := by
    rw [PostToSlackBigMsg_bodies SlackCharLimit (by decide) m hookUrl text9000, if_neg hne]
    have hlen : text9000.length / SlackCharLimit = 2 := by
      rw [text9000, length_mk_replicate]; rfl
    have hr : List.range 2 = [0, 1] := rfl
    have t1 : List.take ((0 + 1) * SlackCharLimit) text9000.data = List.replicate 4000 'a' := by
      show List.take 4000 (List.replicate 9000 'a') = List.replicate 4000 'a'
      rw [List.take_replicate]; rfl
    have t2 : List.take ((1 + 1) * SlackCharLimit) text9000.data = List.replicate 8000 'a' := by
      show List.take 8000 (List.replicate 9000 'a') = List.replicate 8000 'a'
      rw [List.take_replicate]; rfl
    rw [hlen, hr]
    simp only [List.map_cons, List.map_nil, t1, t2, List.cons_append, List.nil_append]
  refine ⟨hb, ?_⟩
  rw [hb]
  simp only [List.map_cons, List.map_nil, text9000, length_mk_replicate]

/-- Claim C2, code defect. When the first attempt is answered with status 429
and `Retry-After: 5` and the next answer would be a success, `PostToSlack`
sleeps 5 seconds inside `Post` and then returns: `Post` returned a nil error,
so the loop breaks. There is one attempt, no retry and no accepted
delivery. -/
theorem PostToSlack_429_returns_without_retry (m : SlackMsg) (hookUrl : String)
    (header : List (String × String)) :
    m.PostToSlack hookUrl [answer 429 [("Retry-After", "5")], answer 200 header]
        = ⟨[Effect.postForm hookUrl ⟨m⟩ (answer 429 [("Retry-After", "5")]),
            Effect.sleep (5 * Second)], Outcome.returned⟩
      ∧ attempts (m.PostToSlack hookUrl
          [answer 429 [("Retry-After", "5")], answer 200 header]).trace = 1
      ∧ successes (m.PostToSlack hookUrl
          [answer 429 [("Retry-After", "5")], answer 200 header]).trace = 0 :=
  ⟨rfl, rfl, rfl⟩

/-- Claim C3, code defect. After the branch for a line longer than
`SlackCharLimit` has reset the buffer and `msgSize`, control falls through to
the statements that append the line: once the line of 4001 characters has been
handled the buffer holds that line and `msgSize` is 4001, and the next
window-elapsed check delivers the line again. -/
theorem poster_oversized_line_is_buffered (hookUrl : String) (ch : channel)
    (name icon : String) (d : Int) :
    (posterStep SlackCharLimit hookUrl (posterInit ch name icon) (.line line4001 d)).1.buffer
        = line4001
      ∧ (posterStep SlackCharLimit hookUrl (posterInit ch name icon) (.line line4001 d)).1.msgSize
        = 4001
      ∧ bodies (posterStep SlackCharLimit hookUrl (posterInit ch name icon) (.line line4001 d)).2
        = [String.mk (List.replicate 4000 'a'), line4001]
      ∧ bodies (posterStep SlackCharLimit hookUrl
          (posterStep SlackCharLimit hookUrl (posterInit ch name icon) (.line line4001 d)).1
          (.idle slackRateLimit)).2 = [line4001] := by
  have hbig : line4001.utf8ByteSize > SlackCharLimit := by
    rw [line4001_size]; decide
  have hempty : ¬ (posterInit ch name icon).buffer.utf8ByteSize > 0 :=
    fun h => absurd h (Nat.lt_irrefl 0)
  rw [posterStep_line, posterRecv_big SlackCharLimit hookUrl _ line4001 d hbig, if_neg hempty]
  refine ⟨rfl, line4001_size, ?_, ?_⟩
  · rw [bodies_append, bodies_append, PostToSlackBigMsg_line4001]
    rfl
  · have hpos : line4001.utf8ByteSize > 0 := by rw [line4001_size]; decide
    simp only [posterStep, ge_iff_le, le_refl, if_true, hpos]
    rfl

/-- Claim C4. For every sequence of iterations made of received lines of
length (`len`) at most the limit and of idle checks with any elapsed times,
followed by the closing of the input, `poster` started in its initial state
signals completion, and the bodies it hands to `PostToSlack` up to that
signal, concatenated in call order, are the input lines concatenated in
arrival order. -/
theorem poster_delivers_lines_in_order (limit : Nat) (hookUrl : String) (ch : channel)
    (name icon : String) (es : List Select) (d : Int) (hsmall : ∀ e ∈ es, e.small limit) :
    Action.done ∈ (posterRun limit hookUrl (posterInit ch name icon) (es ++ [.closed d])).2
      ∧ concat (bodies (untilDone
          (posterRun limit hookUrl (posterInit ch name icon) (es ++ [.closed d])).2))
        = inputText es := by
  have h := posterRun_small limit hookUrl es (posterInit ch name icon) hsmall
  have hinit : (posterInit ch name icon).buffer = "" := rfl
  rw [hinit, String.empty_append] at h
  rw [posterRun_append, posterRun_cons]
  simp only [posterRun, List.append_nil]
  constructor
  · apply List.mem_append_right
    simp [posterStep]
  · rw [untilDone_append _ _ h.1, posterStep_closed_untilDone, bodies_append, bodies_append,
      concat_append, concat_append, ← h.2]
    congr 1
    by_cases hbuf : (posterRun limit hookUrl (posterInit ch name icon) es).1.buffer.utf8ByteSize > 0
    · rw [if_pos hbuf]
      simp [bodies, Action.body?, concat]
    · rw [if_neg hbuf]
      have : (posterRun limit hookUrl (posterInit ch name icon) es).1.buffer = "" := by
        by_contra hne
        exact hbuf ((utf8ByteSize_pos_iff _).mpr hne)
      rw [this]
      rfl

theorem poster_delivers_lines_in_order_witness :
    (∀ e ∈ [Select.line "ab" 5, Select.idle 3000000000, Select.line "cde" 1, Select.line "f" 0],
        e.small SlackCharLimit)
      ∧ Action.done ∈ (posterRun SlackCharLimit "hook" (posterInit ⟨"hook", "chatops"⟩ "me" "")
          ([Select.line "ab" 5, Select.idle 3000000000, Select.line "cde" 1, Select.line "f" 0]
            ++ [.closed 7])).2
      ∧ concat (bodies (untilDone
          (posterRun SlackCharLimit "hook" (posterInit ⟨"hook", "chatops"⟩ "me" "")
            ([Select.line "ab" 5, Select.idle 3000000000, Select.line "cde" 1, Select.line "f" 0]
              ++ [.closed 7])).2))
        = inputText
            [Select.line "ab" 5, Select.idle 3000000000, Select.line "cde" 1, Select.line "f" 0] :=
  ⟨by decide,
   poster_delivers_lines_in_order SlackCharLimit "hook" ⟨"hook", "chatops"⟩ "me" ""
     [Select.line "ab" 5, Select.idle 3000000000, Select.line "cde" 1, Select.line "f" 0] 7
     (by decide)⟩

/-- Claim C5. In a state whose buffer is non-empty and of size `msgSize`, a
line that fits the limit on its own but not together with the buffer makes
`poster` wait out the window, hand the buffer to `PostToSlack` as one message
and only then accumulate the line: afterwards the buffer holds exactly that
line. With limit 150, the lines of 100 `a` and of 100 `b` followed by the
closing of the input give the deliveries of 100 `a`, then of 100 `b`. -/
theorem poster_flushes_before_overflowing_line :
    (∀ (limit : Nat) (hookUrl : String) (st : PosterState) (text : String) (since : Int),
        st.buffer.utf8ByteSize > 0 →
        st.msgSize = st.buffer.utf8ByteSize →
        text.utf8ByteSize ≤ limit →
        st.buffer.utf8ByteSize + text.utf8ByteSize > limit →
        posterStep limit hookUrl st (.line text since)
          = ({ buffer := text, msgSize := text.utf8ByteSize,
               msg := { st.msg with Text := st.buffer } },
             [Action.sleep (slackRateLimit - since),
              Action.postToSlack hookUrl { st.msg with Text := st.buffer }]))
      ∧ (∀ (hookUrl : String) (ch : channel) (name icon : String) (d1 d2 d3 : Int),
          bodies (untilDone (posterRun 150 hookUrl (posterInit ch name icon)
            [.line a100 d1, .line b100 d2, .closed d3]).2) = [a100, b100]) := by
  constructor
  · intro limit hookUrl st text since hbuf hsize hfit hover
    exact posterRecv_overflow limit hookUrl st text since hfit (by omega) hbuf
  · intro hookUrl ch name icon d1 d2 d3
    rfl

theorem poster_flushes_before_overflowing_line_witness :
    (a100.utf8ByteSize > 0 ∧ 100 = a100.utf8ByteSize ∧ b100.utf8ByteSize ≤ 150
        ∧ a100.utf8ByteSize + b100.utf8ByteSize > 150)
      ∧ posterStep 150 "hook" ⟨a100, 100, ⟨"chatops", "me", "", "full", ""⟩⟩ (.line b100 500)
        = (⟨b100, b100.utf8ByteSize, ⟨"chatops", "me", a100, "full", ""⟩⟩,
           [Action.sleep (slackRateLimit - 500),
            Action.postToSlack "hook" ⟨"chatops", "me", a100, "full", ""⟩]) :=
  ⟨by decide,
   poster_flushes_before_overflowing_line.1 150 "hook"
     ⟨a100, 100, ⟨"chatops", "me", "", "full", ""⟩⟩ b100 500
     (by decide) (by decide) (by decide) (by decide)⟩

/-- Claim C6, counterexample. With the header `Retry-After` holding an HTTP
date, which is not an integer, `rateLimitDelay` does not sleep at all, not 60
seconds: it returns an error, and `PostToSlack` makes its next attempt with
no wait in between. With the header `9223372037`, which is an integer, the
duration in nanoseconds wraps to a negative value and there is no wait
either. -/
theorem rateLimitDelay_unparsable_header_no_wait :
    rateLimitDelay ⟨429, [("Retry-After", "Fri, 31 Dec 1999 23:59:59 GMT")]⟩
        = ([], some "Failed to get the timeout value")
      ∧ (SlackMsg.PostToSlack ⟨"chatops", "me", "hello", "full", ""⟩ "hook"
          [answer 429 [("Retry-After", "Fri, 31 Dec 1999 23:59:59 GMT")], answer 200 []]).trace
        = [Effect.postForm "hook" ⟨⟨"chatops", "me", "hello", "full", ""⟩⟩
             (answer 429 [("Retry-After", "Fri, 31 Dec 1999 23:59:59 GMT")]),
           Effect.postForm "hook" ⟨⟨"chatops", "me", "hello", "full", ""⟩⟩ (answer 200 [])]
      ∧ rateLimitDelay ⟨429, [("Retry-After", "9223372037")]⟩
        = ([Effect.sleep (-9223372036709551616)], none)
      ∧ totalWaited (rateLimitDelay ⟨429, [("Retry-After", "9223372037")]⟩).1 = 0 := by
  decide

/-- Claim C6, amended. For every response: when the header `Retry-After` is
absent or empty `rateLimitDelay` sleeps 60 seconds; when it parses as an
integer between 0 and 9223372036 it sleeps that number of seconds; when it is
present and does not parse, `rateLimitDelay` does not sleep and returns an
error, and `PostToSlack` goes on to its next attempt at once. For a response
with status 429 the sleeps of `rateLimitDelay` come right after the attempt
that was answered, before anything `PostToSlack` does next. -/
theorem rateLimitDelay_waits (resp : Response) :
    (resp.headerGet "Retry-After" = "" →
        rateLimitDelay resp = ([Effect.sleep (60 * Second)], none))
      ∧ (∀ sec : Int, Atoi (resp.headerGet "Retry-After") = some sec →
          0 ≤ sec → sec ≤ 9223372036 →
          rateLimitDelay resp = ([Effect.sleep (sec * Second)], none))
      ∧ (resp.headerGet "Retry-After" ≠ "" → Atoi (resp.headerGet "Retry-After") = none →
          rateLimitDelay resp = ([], some "Failed to get the timeout value")
            ∧ ∀ (m : SlackMsg) (hookUrl : String) (rest : List PostFormResult),
                resp.StatusCode = StatusTooManyRequests →
                m.PostToSlack hookUrl (⟨some resp, none⟩ :: rest)
                  = SlackRun.after [Effect.postForm hookUrl ⟨m⟩ ⟨some resp, none⟩]
                      (m.PostToSlack hookUrl rest))
      ∧ (∀ (m : SlackMsg) (hookUrl : String) (rest : List PostFormResult),
          resp.StatusCode = StatusTooManyRequests →
          ∃ later, (m.PostToSlack hookUrl (⟨some resp, none⟩ :: rest)).trace
            = Effect.postForm hookUrl ⟨m⟩ ⟨some resp, none⟩
                :: ((rateLimitDelay resp).1 ++ later)) := by
  refine ⟨?_, ?_, ?_, ?_⟩
  · intro h
    simp [rateLimitDelay, h]
  · intro sec hsec h0 h1
    have hne : resp.headerGet "Retry-After" ≠ "" := by
      intro h
      have hempty : Atoi "" = none := rfl
      rw [h, hempty] at hsec
      cases hsec
    have hw : wrapInt64 (sec * Second) = sec * Second := by
      unfold wrapInt64 Second
      omega
    simp [rateLimitDelay, hne, hsec, hw]
  · intro hne hnone
    have hr : rateLimitDelay resp = ([], some "Failed to get the timeout value") := by
      simp [rateLimitDelay, hne, hnone]
    refine ⟨hr, ?_⟩
    intro m hookUrl rest h429
    simp [SlackMsg.PostToSlack, SlackMsg.Post, SlackMsg.Encode, h429, hr]
  · intro m hookUrl rest h429
    rcases hrd : rateLimitDelay resp with ⟨sl, e⟩
    cases e with
    | none =>
      refine ⟨[], ?_⟩
      simp [SlackMsg.PostToSlack, SlackMsg.Post, SlackMsg.Encode, h429, hrd]
    | some e =>
      refine ⟨(m.PostToSlack hookUrl rest).trace, ?_⟩
      simp [SlackMsg.PostToSlack, SlackMsg.Post, SlackMsg.Encode, h429, hrd, SlackRun.after]

theorem rateLimitDelay_waits_witness :
    (Response.headerGet ⟨429, []⟩ "Retry-After" = ""
        ∧ rateLimitDelay ⟨429, []⟩ = ([Effect.sleep (60 * Second)], none))
      ∧ (Atoi (Response.headerGet ⟨429, [("Retry-After", "5")]⟩ "Retry-After") = some 5
        ∧ (0 : Int) ≤ 5 ∧ (5 : Int) ≤ 9223372036
        ∧ rateLimitDelay ⟨429, [("Retry-After", "5")]⟩ = ([Effect.sleep (5 * Second)], none))
      ∧ (Response.headerGet ⟨429, [("Retry-After", "soon")]⟩ "Retry-After" ≠ ""
        ∧ Atoi (Response.headerGet ⟨429, [("Retry-After", "soon")]⟩ "Retry-After") = none
        ∧ rateLimitDelay ⟨429, [("Retry-After", "soon")]⟩
            = ([], some "Failed to get the timeout value"))
      ∧ (∃ later, (SlackMsg.PostToSlack ⟨"chatops", "me", "hello", "full", ""⟩ "hook"
            (⟨some ⟨429, [("Retry-After", "5")]⟩, none⟩ :: [answer 200 []])).trace
          = Effect.postForm "hook" ⟨⟨"chatops", "me", "hello", "full", ""⟩⟩
              ⟨some ⟨429, [("Retry-After", "5")]⟩, none⟩
            :: ((rateLimitDelay ⟨429, [("Retry-After", "5")]⟩).1 ++ later)) :=
  ⟨⟨rfl, (rateLimitDelay_waits ⟨429, []⟩).1 rfl⟩,
   ⟨rfl, by decide, by decide,
     (rateLimitDelay_waits ⟨429, [("Retry-After", "5")]⟩).2.1 5 rfl (by decide) (by decide)⟩,
   ⟨by decide, rfl,
     ((rateLimitDelay_waits ⟨429, [("Retry-After", "soon")]⟩).2.2.1 (by decide) rfl).1⟩,
   (rateLimitDelay_waits ⟨429, [("Retry-After", "5")]⟩).2.2.2
     ⟨"chatops", "me", "hello", "full", ""⟩ "hook" [answer 200 []] rfl⟩

/-- Claim C7, counterexample. Status 503 is a server error, yet when the
first attempt is answered with 503 `PostToSlack` calls `log.Fatalf`: the
process is aborted, there is no backoff, no retry and no accepted delivery. -/
theorem PostToSlack_503_then_ok_is_fatal :
    SlackMsg.PostToSlack ⟨"chatops", "me", "hello", "full", ""⟩ "hook"
        [answer 503 [], answer 200 []]
        = ⟨[Effect.postForm "hook" ⟨⟨"chatops", "me", "hello", "full", ""⟩⟩ (answer 503 []),
            Effect.fatalf], Outcome.fatal⟩
      ∧ successes (SlackMsg.PostToSlack ⟨"chatops", "me", "hello", "full", ""⟩ "hook"
          [answer 503 [], answer 200 []]).trace = 0 := by
  decide

/-- Claim C7, amended. For status 500 and every message, when the endpoint
answers the first attempt with 500 and the second with 200, `PostToSlack`
sleeps one backoff of 60 seconds, posts the same message again and returns
after exactly one accepted delivery, without aborting. For every other status
from 501 to 599 on the first attempt it aborts the process after that one
attempt. -/
theorem PostToSlack_500_then_ok_retries_once (m : SlackMsg) (hookUrl : String)
    (h1 h2 : List (String × String)) :
    (m.PostToSlack hookUrl [answer 500 h1, answer 200 h2]
          = ⟨[Effect.postForm hookUrl ⟨m⟩ (answer 500 h1),
              Effect.sleep (60 * Second),
              Effect.postForm hookUrl ⟨m⟩ (answer 200 h2)], Outcome.returned⟩
        ∧ successes (m.PostToSlack hookUrl [answer 500 h1, answer 200 h2]).trace = 1
        ∧ totalWaited (m.PostToSlack hookUrl [answer 500 h1, answer 200 h2]).trace
            = 60 * Second)
      ∧ (∀ (status : Int) (rest : List PostFormResult), 500 < status → status ≤ 599 →
          m.PostToSlack hookUrl (answer status h1 :: rest)
            = ⟨[Effect.postForm hookUrl ⟨m⟩ (answer status h1), Effect.fatalf],
               Outcome.fatal⟩) := by
  refine ⟨⟨rfl, rfl, rfl⟩, ?_⟩
  intro status rest hlo hhi
  have h429 : status ≠ StatusTooManyRequests := by unfold StatusTooManyRequests; omega
  have h200 : status ≠ StatusOK := by unfold StatusOK; omega
  have h500 : status ≠ StatusInternalServerError := by unfold StatusInternalServerError; omega
  simp [SlackMsg.PostToSlack, SlackMsg.Post, SlackMsg.Encode, answer, h429, h200, h500]

theorem PostToSlack_500_then_ok_retries_once_witness :
    ((500 : Int) < 502 ∧ (502 : Int) ≤ 599)
      ∧ SlackMsg.PostToSlack ⟨"chatops", "me", "hello", "full", ""⟩ "hook"
          (answer 502 [] :: [answer 200 []])
        = ⟨[Effect.postForm "hook" ⟨⟨"chatops", "me", "hello", "full", ""⟩⟩ (answer 502 []),
            Effect.fatalf], Outcome.fatal⟩ :=
  ⟨by decide,
   (PostToSlack_500_then_ok_retries_once ⟨"chatops", "me", "hello", "full", ""⟩ "hook" [] []).2
     502 [answer 200 []] (by decide) (by decide)⟩

/-- Claim C8, code defect. From the initial state the line of 4001 characters
leaves `msgSize` at 4001, above `SlackCharLimit`, when the next line arrives;
on that next line `poster` flushes the buffer as one batch whose body is the
4001-character line, longer than `SlackCharLimit`. -/
theorem poster_flushes_batch_over_limit (hookUrl : String) (ch : channel) (name icon : String)
    (d1 d2 : Int) :
    (posterRun SlackCharLimit hookUrl (posterInit ch name icon) [.line line4001 d1]).1.msgSize
        > SlackCharLimit
      ∧ bodies (posterStep SlackCharLimit hookUrl
          (posterRun SlackCharLimit hookUrl (posterInit ch name icon) [.line line4001 d1]).1
          (.line "x" d2)).2 = [line4001]
      ∧ line4001.utf8ByteSize > SlackCharLimit := by
  have hbig : line4001.utf8ByteSize > SlackCharLimit := by
    rw [line4001_size]; decide
  have hrun : (posterRun SlackCharLimit hookUrl (posterInit ch name icon) [.line line4001 d1]).1
      = { buffer := line4001, msgSize := line4001.utf8ByteSize,
          msg := { (posterInit ch name icon).msg with Text := "" } } := by
    rw [posterRun_cons, posterStep_line,
      posterRecv_big SlackCharLimit hookUrl _ line4001 d1 hbig]
    rfl
  rw [hrun]
  refine ⟨hbig, ?_, hbig⟩
  have hx : ("x" : String).utf8ByteSize ≤ SlackCharLimit := by decide
  rw [posterStep_line, posterRecv_overflow SlackCharLimit hookUrl _ "x" d2 hx
    (by show line4001.utf8ByteSize + _ > _; omega)
    (by show line4001.utf8ByteSize > 0; omega)]
  rfl

/-- Claim C9. When the input channel is closed while the buffer is non-empty,
`poster` hands the whole buffer to `PostToSlack` exactly once and sends the
completion signal right after it; when the buffer is empty it sends the
completion signal and delivers nothing before it. -/
theorem poster_final_flush_on_close (limit : Nat) (hookUrl : String) (st : PosterState)
    (d : Int) :
    (st.buffer ≠ "" →
        untilDone (posterStep limit hookUrl st (.closed d)).2
          = [Action.postToSlack hookUrl { st.msg with Text := st.buffer }, Action.done])
      ∧ (st.buffer = "" →
        untilDone (posterStep limit hookUrl st (.closed d)).2 = [Action.done]) := by
  rw [posterStep_closed_untilDone]
  constructor
  · intro hne
    rw [if_pos ((utf8ByteSize_pos_iff _).mpr hne)]
    rfl
  · intro he
    rw [he]
    rfl

theorem poster_final_flush_on_close_witness :
    (("abc" : String) ≠ ""
        ∧ untilDone (posterStep SlackCharLimit "hook"
            ⟨"abc", 3, ⟨"chatops", "me", "", "full", ""⟩⟩ (.closed 0)).2
          = [Action.postToSlack "hook" ⟨"chatops", "me", "abc", "full", ""⟩, Action.done])
      ∧ (("" : String) = ""
        ∧ untilDone (posterStep SlackCharLimit "hook"
            ⟨"", 0, ⟨"chatops", "me", "", "full", ""⟩⟩ (.closed 0)).2 = [Action.done]) :=
  ⟨⟨by decide,
    (poster_final_flush_on_close SlackCharLimit "hook"
      ⟨"abc", 3, ⟨"chatops", "me", "", "full", ""⟩⟩ 0).1 (by decide)⟩,
   ⟨rfl,
    (poster_final_flush_on_close SlackCharLimit "hook"
      ⟨"", 0, ⟨"chatops", "me", "", "full", ""⟩⟩ 0).2 rfl⟩⟩

/-- Claim C10, code defect. When `http.PostForm` fails and returns a nil
response with its error, `Post` reads `resp.StatusCode` inside the branch
`err != nil`: it dereferences the nil response and panics, returning no
`(error, status)` pair. -/
theorem Post_panics_on_transport_error (m : SlackMsg) (WebhookURL err : String) :
    m.Post WebhookURL ⟨none, some err⟩
        = ⟨[Effect.postForm WebhookURL ⟨m⟩ ⟨none, some err⟩], none⟩
      ∧ ∀ rest : List PostFormResult,
          (m.PostToSlack WebhookURL (⟨none, some err⟩ :: rest)).outcome = Outcome.panicked :=
  ⟨rfl, fun _ => rfl⟩

end Read2Slack
